import Mathlib

/-!
Verification of the durable message-delivery subsystem of the
`url-shortener` repository: the `MessageQueue` (durable message store),
`PurgePolicy` (staleness policy), `AsyncQueue` (serial task queue) and
`WebSocketService` (delivery dispatcher), shallowly embedded in Lean.

Timestamps (`Date.now()`) are passed explicitly as `Nat` milliseconds.
Each mutating store operation returns the new store together with a
`Bool` recording whether a persistence write (`saveToDisk`) was
triggered.  The JavaScript `Map` backing the store is modelled as a
list of messages in insertion order, `Map.set` replacing in place.
-/

namespace UrlShortener

/-- `IMessagePayload` from the source: `{ shortenedURL: string }`.
For this record shape `JSON.stringify` equality coincides with
structural equality. -/
structure IMessagePayload where
  shortenedURL : String
deriving DecidableEq, Repr

/-- `IMessage` from the source: one pending durable message. -/
structure IMessage where
  id : String
  clientId : String
  payload : IMessagePayload
  createdAt : Nat
  nextAttempt : Nat
  retryCount : Nat
deriving DecidableEq, Repr

/-- The in-memory store `this.messages : Map<string, IMessage>`,
as its list of values in insertion order. -/
abbrev Store := List IMessage

/-- `Map.set` on the store keyed by message id: replace in place when the
key exists, append otherwise (JavaScript `Map` insertion-order semantics). -/
def mapSet (store : Store) (msg : IMessage) : Store :=
  if store.any (fun m => m.id == msg.id) then
    store.map (fun m => if m.id == msg.id then msg else m)
  else
    store ++ [msg]

/-- `Map.delete` on the store keyed by message id. -/
def mapDelete (store : Store) (messageId : String) : Store :=
  store.filter (fun m => m.id != messageId)

/-- `Map.get` on the store keyed by message id. -/
def mapGet (store : Store) (messageId : String) : Option IMessage :=
  store.find? (fun m => m.id == messageId)

/-- Default `MAX_MESSAGE_AGE_MS` from config: 7 days in milliseconds. -/
def MAX_MESSAGE_AGE_MS : Nat := 604800000

/-- Default `MAX_DELIVERY_ATTEMPTS` from config. -/
def MAX_DELIVERY_ATTEMPTS : Nat := 10

/-- `MessageQueue.backoffBaseMs`. -/
def backoffBaseMs : Nat := 2000

/-- `MessageQueue.maxDelayMs`. -/
def maxDelayMs : Nat := 30000

/-- `PurgePolicy.isExpired(msg)`: the message is older than `maxAgeMs`
(age computed as a signed difference, as in JavaScript) or has been
retried at least `maxAttempts` times. -/
def isExpired (maxAgeMs maxAttempts : Nat) (now : Nat) (msg : IMessage) : Bool :=
  if (now : Int) - (msg.createdAt : Int) ≥ (maxAgeMs : Int) then true
  else if msg.retryCount ≥ maxAttempts then true
  else false

/-- `MessageQueue.add(messageId, clientId, payload)`: scan for a pending
message with the same `clientId` and a `JSON.stringify`-equal payload;
if found, return unchanged with no persistence write; otherwise insert a
fresh message with `createdAt = nextAttempt = now`, `retryCount = 0`,
and persist. -/
def add (now : Nat) (store : Store) (messageId clientId : String)
    (payload : IMessagePayload) : Store × Bool :=
  if store.any (fun m => m.clientId == clientId && m.payload == payload) then
    (store, false)
  else
    (mapSet store
      { id := messageId, clientId := clientId, payload := payload,
        createdAt := now, nextAttempt := now, retryCount := 0 }, true)

/-- `MessageQueue.getMessagesToSend()`: all messages with
`now >= nextAttempt`, in store iteration order; no mutation. -/
def getMessagesToSend (now : Nat) (store : Store) : List IMessage :=
  store.filter (fun m => now ≥ m.nextAttempt)

/-- `MessageQueue.ack(messageId)`: delete and persist when present,
otherwise do nothing and trigger no write. -/
def ack (store : Store) (messageId : String) : Store × Bool :=
  if store.any (fun m => m.id == messageId) then
    (mapDelete store messageId, true)
  else
    (store, false)

/-- `MessageQueue.onSendFailure(messageId)`: when the message exists,
increment `retryCount`, set
`nextAttempt = now + min(backoffBaseMs * 2^retryCount, maxDelayMs)`
with the already-incremented count, and persist; unknown ids are a
no-op with no write. -/
def onSendFailure (now : Nat) (store : Store) (messageId : String) :
    Store × Bool :=
  match mapGet store messageId with
  | none => (store, false)
  | some msg =>
    let rc := msg.retryCount + 1
    let delay := min (backoffBaseMs * 2 ^ rc) maxDelayMs
    (mapSet store { msg with retryCount := rc, nextAttempt := now + delay },
      true)

/-- `MessageQueue.purgeStaleMessages()`: remove every message the purge
policy marks expired; persist once iff at least one was removed. -/
def purgeStaleMessages (maxAgeMs maxAttempts : Nat) (now : Nat)
    (store : Store) : Store × Bool :=
  (store.filter (fun m => !(isExpired maxAgeMs maxAttempts now m)),
    store.any (isExpired maxAgeMs maxAttempts now))

/-! ### Serial task queue (`AsyncQueue`)

A task is modelled by a label, a failure flag (whether the task throws),
and the list of tasks it re-entrantly enqueues while running.  `AsyncQueue`
executes tasks one at a time from the front of its queue; a task enqueued
during processing is pushed to the back of the same queue (`enqueue`
just pushes, and the nested `process` call returns at the `running` guard),
so the single draining loop picks it up after the current task completes. -/

inductive Task where
  | mk (label : Nat) (fails : Bool) (spawns : List Task)
deriving Repr

def Task.label : Task → Nat
  | .mk l _ _ => l

def Task.fails : Task → Bool
  | .mk _ f _ => f

def Task.spawns : Task → List Task
  | .mk _ _ s => s

mutual

/-- Total number of tasks in a task tree, the task itself included. -/
def Task.size : Task → Nat
  | .mk _ _ s => 1 + sizeAll s

/-- Total number of tasks in a list of task trees. -/
def sizeAll : List Task → Nat
  | [] => 0
  | t :: ts => Task.size t + sizeAll ts

end

theorem sizeAll_append (a b : List Task) :
    sizeAll (a ++ b) = sizeAll a + sizeAll b := by
  induction a with
  | nil => simp [sizeAll]
  | cons t ts ih => simp [sizeAll, ih]; omega

/-- `AsyncQueue.enqueue`: push the task to the back of the queue. -/
def enqueueTask (queue : List Task) (t : Task) : List Task := queue ++ [t]

/-- The drain loop of `AsyncQueue.process`, fuelled: shift the front task,
execute it (recording `(label, fails)`; a thrown error is caught, so the
loop continues either way), append its re-entrant enqueues to the back,
and repeat while the queue is nonempty. -/
def runQueue : Nat → List Task → List (Nat × Bool)
  | 0, _ => []
  | _, [] => []
  | fuel + 1, .mk l f s :: rest =>
      (l, f) :: runQueue fuel (rest ++ s)

/-- The submission order of task labels: front task first, then the rest
of the queue followed by the front task's re-entrant enqueues.  Defined
independently of the failure flags. -/
def runOrder : List Task → List Nat
  | [] => []
  | .mk l _ s :: rest => l :: runOrder (rest ++ s)
termination_by queue => sizeAll queue
decreasing_by
  simp only [sizeAll_append, sizeAll, Task.size]
  omega

/-! ### Delivery dispatcher (`WebSocketService`)

Parsed JSON values are modelled by `JVal`; an inbound frame whose bytes
fail `JSON.parse` is modelled as `none` (the `catch` swallows the
error).  The client map `clientId -> WebSocket` is a list of pairs with
`Map.set`/`Map.delete` semantics; a socket is abstracted by an
identifier plus whether `readyState === OPEN`. -/

inductive JVal where
  | jnull
  | jbool (b : Bool)
  | jnum (n : Int)
  | jstr (s : String)
  | jarr (elems : List JVal)
  | jobj (fields : List (String × JVal))

/-- JavaScript property access `v.key` on a parsed JSON value: a field of
an object, `undefined` (`none`) otherwise. -/
def JVal.getProp (v : JVal) (key : String) : Option JVal :=
  match v with
  | .jobj fields => (fields.find? (fun p => p.1 == key)).map Prod.snd
  | _ => none

/-- The inbound-message handler body: after a successful parse, forward
an ACK's id iff `msg.type === "ACK"` and `typeof msg.id === "string"`;
on any other shape, or a parse failure (`none`), do nothing — the
handler never throws to the transport. -/
def handleInbound (parsed : Option JVal) : Option String :=
  match parsed with
  | none => none
  | some v =>
    match v.getProp "type", v.getProp "id" with
    | some (.jstr t), some (.jstr i) => if t == "ACK" then some i else none
    | _, _ => none

/-- Effect of one inbound frame on the store: `ack` the forwarded id when
the handler produced one, otherwise leave the store untouched. -/
def applyInbound (parsed : Option JVal) (store : Store) : Store × Bool :=
  match handleInbound parsed with
  | some i => ack store i
  | none => (store, false)

/-- The client map `clientId -> socket id`. -/
abbrev Clients := List (String × Nat)

/-- `Map.set` on the client map: last write wins. -/
def clientsSet (clients : Clients) (clientId : String) (sock : Nat) :
    Clients :=
  if clients.any (fun p => p.1 == clientId) then
    clients.map (fun p => if p.1 == clientId then (clientId, sock) else p)
  else
    clients ++ [(clientId, sock)]

/-- `Map.delete` on the client map. -/
def clientsDelete (clients : Clients) (clientId : String) : Clients :=
  clients.filter (fun p => p.1 != clientId)

/-- `Map.get` on the client map. -/
def clientsGet (clients : Clients) (clientId : String) : Option Nat :=
  (clients.find? (fun p => p.1 == clientId)).map Prod.snd

/-- `WebSocketService.extractClientId`: the `clientId` query parameter of
the request URL.  The request is modelled by its parsed query-parameter
list (`none` when the URL is absent or unparseable); the source's
`|| undefined` turns an empty-string parameter into absence. -/
def extractClientId (query : Option (List (String × String))) :
    Option String :=
  match query with
  | none => none
  | some params =>
    match (params.find? (fun p => p.1 == "clientId")).map Prod.snd with
    | none => none
    | some s => if s == "" then none else some s

/-- Observable outcome of the `connection` handler for one new socket. -/
structure ConnectResult where
  clients : Clients
  closedWith : Option (Nat × String)
  sent : List JVal
  handlersAttached : Bool

/-- The `connection` handler: reject with close code 1008 when no
`clientId` can be extracted; otherwise register the socket (replacing
any previous mapping for that id), send `{type:"CLIENT_ID", clientId}`,
and attach the `message` and `close` listeners. -/
def handleConnection (clients : Clients)
    (query : Option (List (String × String))) (sock : Nat) : ConnectResult :=
  match extractClientId query with
  | none =>
    { clients := clients, closedWith := some (1008, "clientId is required"),
      sent := [], handlersAttached := false }
  | some clientId =>
    { clients := clientsSet clients clientId sock,
      closedWith := none,
      sent := [.jobj [("type", .jstr "CLIENT_ID"), ("clientId", .jstr clientId)]],
      handlersAttached := true }

/-- The `close` listener: remove the registration for the clientId. -/
def handleDisconnect (clients : Clients) (clientId : String) : Clients :=
  clientsDelete clients clientId

/-- Whether a socket id is in `readyState === OPEN`, supplied by the
environment. -/
abbrev SocketState := Nat → Bool

/-- Whether sending a frame for a given message id reports a
transmission error (either a synchronous throw or an error passed to the
send callback), supplied by the environment. -/
abbrev SendErr := String → Bool

/-- One delivery tick, `WebSocketService.broadcastPendingMessages()`:
snapshot the due messages, then for each one in order call
`onSendFailure` when its client has no registered socket, the socket is
not open, or transmission errors; a successful send changes nothing. -/
def broadcastPendingMessages (now : Nat) (clients : Clients)
    (sockState : SocketState) (sendErr : SendErr) (store : Store) : Store :=
  (getMessagesToSend now store).foldl
    (fun st msg =>
      match clientsGet clients msg.clientId with
      | none => (onSendFailure now st msg.id).1
      | some sock =>
        if !(sockState sock) then (onSendFailure now st msg.id).1
        else if sendErr msg.id then (onSendFailure now st msg.id).1
        else st)
    store

/-! ### Helper lemmas about the store's `Map` operations -/

theorem find?_map_replace (store : Store) (m : IMessage)
    (h : store.any (fun x => x.id == m.id) = true) :
    (store.map (fun x => if x.id == m.id then m else x)).find?
      (fun x => x.id == m.id) = some m := by
  induction store with
  | nil => simp at h
  | cons a as ih =>
    by_cases ha : a.id = m.id
    · have ha' : (a.id == m.id) = true := by simp [ha]
      simp only [List.map_cons, ha', if_true]
      exact List.find?_cons_of_pos _ (by simp)
    · have ha' : (a.id == m.id) = false := by simp [ha]
      simp only [List.any_cons, ha', Bool.false_or] at h
      simp only [List.map_cons, ha', Bool.false_eq_true, if_false]
      rw [List.find?_cons_of_neg _ (by simp [ha'])]
      exact ih h

theorem mapGet_mapSet (store : Store) (m : IMessage) :
    mapGet (mapSet store m) m.id = some m := by
  unfold mapGet mapSet
  cases hany : store.any (fun x => x.id == m.id) with
  | true =>
    simp only [if_true]
    exact find?_map_replace store m hany
  | false =>
    simp only [Bool.false_eq_true, if_false]
    rw [List.find?_append]
    have hnone : store.find? (fun x => x.id == m.id) = none := by
      rw [List.find?_eq_none]
      intro x hx hbeq
      have hx' : store.any (fun x => x.id == m.id) = true :=
        List.any_eq_true.mpr ⟨x, hx, hbeq⟩
      rw [hany] at hx'
      exact Bool.false_ne_true hx'
    simp [hnone]

theorem mapGet_id_eq (store : Store) (key : String) (msg : IMessage)
    (h : mapGet store key = some msg) : msg.id = key := by
  have := List.find?_some h
  simpa using this

theorem mapGet_mem (store : Store) (key : String) (msg : IMessage)
    (h : mapGet store key = some msg) : msg ∈ store :=
  List.mem_of_find?_eq_some h

theorem mapSet_ids_of_found (store : Store) (m : IMessage)
    (h : store.any (fun x => x.id == m.id) = true) :
    (mapSet store m).map IMessage.id = store.map IMessage.id := by
  unfold mapSet
  simp only [h, if_true, List.map_map]
  apply List.map_congr_left
  intro x _
  by_cases hx : x.id = m.id
  · simp [Function.comp, hx]
  · simp [Function.comp, hx]

/-- The message written back by `onSendFailure`: retry count incremented,
next attempt scheduled with the capped exponential backoff. -/
def bumped (msg : IMessage) (now : Nat) : IMessage :=
  { msg with
    retryCount := msg.retryCount + 1,
    nextAttempt := now + min (backoffBaseMs * 2 ^ (msg.retryCount + 1)) maxDelayMs }

/-- `onSendFailure` on a present id rewrites the found message in place. -/
theorem onSendFailure_found (now : Nat) (store : Store) (messageId : String)
    (msg : IMessage) (h : mapGet store messageId = some msg) :
    onSendFailure now store messageId = (mapSet store (bumped msg now), true) := by
  simp [onSendFailure, h, bumped]

/-- `onSendFailure` never adds or removes ids. -/
theorem onSendFailure_ids (now : Nat) (store : Store) (messageId : String) :
    ((onSendFailure now store messageId).1).map IMessage.id =
      store.map IMessage.id := by
  cases hget : mapGet store messageId with
  | none => simp [onSendFailure, hget]
  | some msg =>
    rw [onSendFailure_found now store messageId msg hget]
    have hmem : msg ∈ store := mapGet_mem store messageId msg hget
    have hany : store.any (fun x => x.id == (bumped msg now).id) = true :=
      List.any_eq_true.mpr ⟨msg, hmem, by simp [bumped]⟩
    exact mapSet_ids_of_found store _ hany

/-- Iterated delivery failures: fold `onSendFailure` over a list of
failure times. -/
def applyFailures (times : List Nat) (store : Store) (messageId : String) :
    Store :=
  times.foldl (fun st t => (onSendFailure t st messageId).1) store

theorem applyFailures_retry (times : List Nat) (t : Nat) (store : Store)
    (messageId : String) (msg : IMessage)
    (h : mapGet store messageId = some msg) :
    ∃ msg', mapGet (applyFailures (times ++ [t]) store messageId) messageId
        = some msg' ∧
      msg'.retryCount = msg.retryCount + times.length + 1 ∧
      msg'.nextAttempt =
        t + min (backoffBaseMs * 2 ^ (msg.retryCount + times.length + 1))
          maxDelayMs := by
  induction times generalizing store msg with
  | nil =>
    have hid : msg.id = messageId := mapGet_id_eq store messageId msg h
    refine ⟨bumped msg t, ?_, by simp [bumped], by simp [bumped]⟩
    simp only [applyFailures, List.nil_append, List.foldl_cons, List.foldl_nil]
    rw [onSendFailure_found t store messageId msg h]
    have h1 := mapGet_mapSet store (bumped msg t)
    simpa [bumped, hid] using h1
  | cons t0 rest ih =>
    have hid : msg.id = messageId := mapGet_id_eq store messageId msg h
    have hstep : applyFailures ((t0 :: rest) ++ [t]) store messageId =
        applyFailures (rest ++ [t]) (mapSet store (bumped msg t0)) messageId := by
      simp only [applyFailures, List.cons_append, List.foldl_cons]
      rw [onSendFailure_found t0 store messageId msg h]
    have hget1 : mapGet (mapSet store (bumped msg t0)) messageId =
        some (bumped msg t0) := by
      have h1 := mapGet_mapSet store (bumped msg t0)
      simpa [bumped, hid] using h1
    obtain ⟨msg', h1, h2, h3⟩ := ih (mapSet store (bumped msg t0))
      (bumped msg t0) hget1
    rw [hstep]
    refine ⟨msg', h1, ?_, ?_⟩
    · simp only [bumped] at h2
      simp only [List.length_cons]
      omega
    · simp only [bumped] at h2 h3
      have hexp : msg.retryCount + 1 + rest.length + 1 =
          msg.retryCount + (t0 :: rest).length + 1 := by
        simp only [List.length_cons]
        omega
      rw [← hexp]
      exact h3

/-! ### Claim theorems -/

/-- C1: for every message id present in the store, `onSendFailure` increments
the message's `retryCount` by 1, sets `nextAttempt` to
`now + min(backoffBase * 2^retryCount, maxDelay)` (defaults 2000 ms and
30000 ms) using the already-incremented count, and persists; hence after `k`
consecutive `onSendFailure` calls on a fresh message, the `k`-th step sets
`nextAttempt - failureTime = min(2000 * 2^k, 30000)`, capped at 30000 ms. -/
theorem C1_onSendFailure_backoff (now : Nat) (store : Store)
    (messageId : String) (msg : IMessage)
    (h : mapGet store messageId = some msg) :
    (∃ msg',
      mapGet (onSendFailure now store messageId).1 messageId = some msg' ∧
      msg'.retryCount = msg.retryCount + 1 ∧
      msg'.nextAttempt =
        now + min (backoffBaseMs * 2 ^ (msg.retryCount + 1)) maxDelayMs ∧
      (onSendFailure now store messageId).2 = true) ∧
    (msg.retryCount = 0 → ∀ times t, ∃ msg',
      mapGet (applyFailures (times ++ [t]) store messageId) messageId
        = some msg' ∧
      msg'.retryCount = times.length + 1 ∧
      msg'.nextAttempt =
        t + min (2000 * 2 ^ (times.length + 1)) 30000) := by
  constructor
  · obtain ⟨msg', h1, h2, h3⟩ := applyFailures_retry [] now store messageId msg h
    refine ⟨msg', ?_, by simpa using h2, by simpa using h3, ?_⟩
    · simpa [applyFailures] using h1
    · rw [onSendFailure_found now store messageId msg h]
  · intro h0 times t
    obtain ⟨msg', h1, h2, h3⟩ := applyFailures_retry times t store messageId msg h
    exact ⟨msg', h1, by simpa [h0] using h2,
      by simpa [h0, backoffBaseMs, maxDelayMs] using h3⟩

/-- Witness for C1 at a concrete store: one fresh message, one failure at
time 5 yields retry count 1 and next attempt `5 + 4000`. -/
theorem C1_onSendFailure_backoff_witness :
    mapGet [⟨"m1", "A", ⟨"u"⟩, 0, 0, 0⟩] "m1"
        = some ⟨"m1", "A", ⟨"u"⟩, 0, 0, 0⟩ ∧
    ((∃ msg',
      mapGet (onSendFailure 5 [⟨"m1", "A", ⟨"u"⟩, 0, 0, 0⟩] "m1").1 "m1"
        = some msg' ∧
      msg'.retryCount = 0 + 1 ∧
      msg'.nextAttempt = 5 + min (backoffBaseMs * 2 ^ (0 + 1)) maxDelayMs ∧
      (onSendFailure 5 [⟨"m1", "A", ⟨"u"⟩, 0, 0, 0⟩] "m1").2 = true) ∧
    ((0 : Nat) = 0 → ∀ times t, ∃ msg',
      mapGet (applyFailures (times ++ [t]) [⟨"m1", "A", ⟨"u"⟩, 0, 0, 0⟩] "m1")
          "m1" = some msg' ∧
      msg'.retryCount = times.length + 1 ∧
      msg'.nextAttempt = t + min (2000 * 2 ^ (times.length + 1)) 30000)) :=
  ⟨by decide,
    C1_onSendFailure_backoff 5 [⟨"m1", "A", ⟨"u"⟩, 0, 0, 0⟩] "m1"
      ⟨"m1", "A", ⟨"u"⟩, 0, 0, 0⟩ (by decide)⟩

/-- C2: `add` is a no-op — no new entry, no persistence write — whenever some
pending message with the same `clientId` and an equal payload already exists,
whatever the ids involved; in particular two `add`s with the same client and
payload on an empty store leave exactly one stored message. -/
theorem C2_add_dedup (now : Nat) (store : Store) (messageId clientId : String)
    (payload : IMessagePayload) (m : IMessage) (hm : m ∈ store)
    (hc : m.clientId = clientId) (hp : m.payload = payload) :
    add now store messageId clientId payload = (store, false) ∧
    ∀ now1 now2 : Nat, ∀ id1 id2 : String, ∀ p : IMessagePayload,
      (add now2 (add now1 [] id1 "A" p).1 id2 "A" p).1
        = (add now1 [] id1 "A" p).1 ∧
      ((add now1 [] id1 "A" p).1).length = 1 := by
  constructor
  · have hany : store.any
        (fun x => x.clientId == clientId && x.payload == payload) = true :=
      List.any_eq_true.mpr ⟨m, hm, by simp [hc, hp]⟩
    simp [add, hany]
  · intro now1 now2 id1 id2 p
    constructor
    · simp [add, mapSet]
    · simp [add, mapSet]

/-- Witness for C2: a second `add` with the same client and payload under a
different id leaves the store and skips the write. -/
theorem C2_add_dedup_witness :
    (⟨"m1", "A", ⟨"u"⟩, 0, 0, 0⟩ : IMessage) ∈
        ([⟨"m1", "A", ⟨"u"⟩, 0, 0, 0⟩] : Store) ∧
    add 9 [⟨"m1", "A", ⟨"u"⟩, 0, 0, 0⟩] "m2" "A" ⟨"u"⟩
      = ([⟨"m1", "A", ⟨"u"⟩, 0, 0, 0⟩], false) :=
  ⟨by decide,
    (C2_add_dedup 9 [⟨"m1", "A", ⟨"u"⟩, 0, 0, 0⟩] "m2" "A" ⟨"u"⟩
      ⟨"m1", "A", ⟨"u"⟩, 0, 0, 0⟩ (by decide) (by decide) (by decide)).1⟩

/-- C3: `purgeStaleMessages` keeps exactly the messages the staleness policy
does not mark expired, where `isExpired` holds iff the age reaches
`maxAgeMs` or `retryCount` reaches `maxAttempts` (defaults 7 days and 10),
and it persists iff at least one message was removed; hence no surviving
message is stale, and a message with `retryCount = maxAttempts` is removed
even when young. -/
theorem C3_purge_stale (maxAgeMs maxAttempts now : Nat) (store : Store) :
    (∀ msg : IMessage, isExpired maxAgeMs maxAttempts now msg = true ↔
      ((maxAgeMs : Int) ≤ (now : Int) - (msg.createdAt : Int) ∨
        maxAttempts ≤ msg.retryCount)) ∧
    (∀ m : IMessage,
      m ∈ (purgeStaleMessages maxAgeMs maxAttempts now store).1 ↔
        m ∈ store ∧ isExpired maxAgeMs maxAttempts now m = false) ∧
    ((purgeStaleMessages maxAgeMs maxAttempts now store).2 = true ↔
      ∃ m ∈ store, isExpired maxAgeMs maxAttempts now m = true) ∧
    (∀ m ∈ (purgeStaleMessages maxAgeMs maxAttempts now store).1,
      isExpired maxAgeMs maxAttempts now m = false) ∧
    (∀ m ∈ store, m.retryCount = maxAttempts →
      m ∉ (purgeStaleMessages maxAgeMs maxAttempts now store).1) ∧
    MAX_MESSAGE_AGE_MS = 7 * 24 * 60 * 60 * 1000 ∧
    MAX_DELIVERY_ATTEMPTS = 10 := by
  have hmem : ∀ m : IMessage,
      m ∈ (purgeStaleMessages maxAgeMs maxAttempts now store).1 ↔
        m ∈ store ∧ isExpired maxAgeMs maxAttempts now m = false := by
    intro m
    simp [purgeStaleMessages, List.mem_filter]
  refine ⟨?_, hmem, ?_, ?_, ?_, by norm_num [MAX_MESSAGE_AGE_MS], rfl⟩
  · intro msg
    unfold isExpired
    split_ifs with h1 h2
    · simp only [true_iff]
      exact Or.inl (by omega)
    · simp only [true_iff]
      exact Or.inr h2
    · simp only [Bool.false_eq_true, false_iff]
      push_neg
      exact ⟨by omega, by omega⟩
  · simp [purgeStaleMessages, List.any_eq_true]
  · intro m hm
    exact ((hmem m).mp hm).2
  · intro m hm hrc hmem'
    have hexp : isExpired maxAgeMs maxAttempts now m = false :=
      ((hmem m).mp hmem').2
    unfold isExpired at hexp
    split_ifs at hexp
    omega

/-- Witness for C3: a young message at the retry limit is purged, a fresh
one survives, and the pass persists. -/
theorem C3_purge_stale_witness :
    (⟨"m2", "B", ⟨"v"⟩, 40, 40, 10⟩ : IMessage) ∈
        ([⟨"m1", "A", ⟨"u"⟩, 40, 40, 0⟩, ⟨"m2", "B", ⟨"v"⟩, 40, 40, 10⟩] : Store) ∧
    (⟨"m2", "B", ⟨"v"⟩, 40, 40, 10⟩ : IMessage).retryCount = 10 ∧
    (⟨"m2", "B", ⟨"v"⟩, 40, 40, 10⟩ : IMessage) ∉
      (purgeStaleMessages 604800000 10 50
        [⟨"m1", "A", ⟨"u"⟩, 40, 40, 0⟩, ⟨"m2", "B", ⟨"v"⟩, 40, 40, 10⟩]).1 :=
  ⟨by decide, by decide,
    (C3_purge_stale 604800000 10 50
        [⟨"m1", "A", ⟨"u"⟩, 40, 40, 0⟩, ⟨"m2", "B", ⟨"v"⟩, 40, 40, 10⟩]).2.2.2.2.1
      ⟨"m2", "B", ⟨"v"⟩, 40, 40, 10⟩ (by decide) (by decide)⟩

/-- C5: `ack` is idempotent — a second `ack` of the same id leaves the store
unchanged and triggers no further write — and for an id not in the store,
both `ack` and `onSendFailure` leave the store unchanged and trigger no
write (both are total functions, so neither raises). -/
theorem C5_ack_idempotent_noop (store : Store) (messageId : String) :
    ack (ack store messageId).1 messageId = ((ack store messageId).1, false) ∧
    (mapGet store messageId = none →
      ack store messageId = (store, false) ∧
      ∀ now, onSendFailure now store messageId = (store, false)) := by
  constructor
  · cases hany : store.any (fun m => m.id == messageId) with
    | true =>
      have h1 : ack store messageId = (mapDelete store messageId, true) := by
        simp [ack, hany]
      have h2 : (mapDelete store messageId).any
          (fun m => m.id == messageId) = false := by
        rw [← Bool.not_eq_true, List.any_eq_true]
        rintro ⟨m, hm, hbeq⟩
        have := (List.mem_filter.mp hm).2
        simp [mapDelete] at this
        simp only [beq_iff_eq] at hbeq
        exact this hbeq
      rw [h1]
      simp [ack, h2]
    | false =>
      have h1 : ack store messageId = (store, false) := by
        simp [ack, hany]
      rw [h1]
      exact h1
  · intro hnone
    have hany : store.any (fun m => m.id == messageId) = false := by
      rw [← Bool.not_eq_true, List.any_eq_true]
      rintro ⟨m, hm, hbeq⟩
      have := List.find?_eq_none.mp hnone m hm
      exact this hbeq
    refine ⟨by simp [ack, hany], ?_⟩
    intro now
    simp [onSendFailure, hnone]

/-- Witness for C5: acking `"m1"` twice equals acking it once, and `ack` and
`onSendFailure` on the absent id `"zz"` are write-free no-ops. -/
theorem C5_ack_idempotent_noop_witness :
    ack (ack [⟨"m1", "A", ⟨"u"⟩, 0, 0, 0⟩] "m1").1 "m1"
      = ((ack [⟨"m1", "A", ⟨"u"⟩, 0, 0, 0⟩] "m1").1, false) ∧
    ack [⟨"m1", "A", ⟨"u"⟩, 0, 0, 0⟩] "zz"
      = ([⟨"m1", "A", ⟨"u"⟩, 0, 0, 0⟩], false) ∧
    onSendFailure 7 [⟨"m1", "A", ⟨"u"⟩, 0, 0, 0⟩] "zz"
      = ([⟨"m1", "A", ⟨"u"⟩, 0, 0, 0⟩], false) :=
  ⟨(C5_ack_idempotent_noop [⟨"m1", "A", ⟨"u"⟩, 0, 0, 0⟩] "m1").1,
    ((C5_ack_idempotent_noop [⟨"m1", "A", ⟨"u"⟩, 0, 0, 0⟩] "zz").2 (by decide)).1,
    ((C5_ack_idempotent_noop [⟨"m1", "A", ⟨"u"⟩, 0, 0, 0⟩] "zz").2 (by decide)).2 7⟩

/-- C6: `getMessagesToSend` returns exactly the stored messages whose
`nextAttempt ≤ now` (as a pure query, the store is untouched), and right
after `add` on an empty store — which sets `createdAt = nextAttempt = now`
and `retryCount = 0` — it returns exactly the one added message. -/
theorem C6_getMessagesToSend_due (now : Nat) (store : Store) :
    (∀ m : IMessage, m ∈ getMessagesToSend now store ↔
      m ∈ store ∧ m.nextAttempt ≤ now) ∧
    ∀ now0 : Nat, ∀ messageId clientId : String, ∀ p : IMessagePayload,
      getMessagesToSend now0 (add now0 [] messageId clientId p).1
        = [⟨messageId, clientId, p, now0, now0, 0⟩] := by
  constructor
  · intro m
    simp [getMessagesToSend, List.mem_filter]
  · intro now0 messageId clientId p
    simp [add, mapSet, getMessagesToSend]

/-- Witness for C6 at a concrete store and time. -/
theorem C6_getMessagesToSend_due_witness :
    ((⟨"m1", "A", ⟨"u"⟩, 0, 0, 0⟩ : IMessage)
        ∈ getMessagesToSend 5 [⟨"m1", "A", ⟨"u"⟩, 0, 0, 0⟩] ↔
      (⟨"m1", "A", ⟨"u"⟩, 0, 0, 0⟩ : IMessage)
        ∈ ([⟨"m1", "A", ⟨"u"⟩, 0, 0, 0⟩] : Store) ∧
      (⟨"m1", "A", ⟨"u"⟩, 0, 0, 0⟩ : IMessage).nextAttempt ≤ 5) ∧
    getMessagesToSend 3 (add 3 [] "m1" "A" ⟨"u"⟩).1
      = [⟨"m1", "A", ⟨"u"⟩, 3, 3, 0⟩] :=
  ⟨(C6_getMessagesToSend_due 5 [⟨"m1", "A", ⟨"u"⟩, 0, 0, 0⟩]).1
      ⟨"m1", "A", ⟨"u"⟩, 0, 0, 0⟩,
    (C6_getMessagesToSend_due 5 [⟨"m1", "A", ⟨"u"⟩, 0, 0, 0⟩]).2 3 "m1" "A" ⟨"u"⟩⟩

/-- C10: the store does not enforce id uniqueness across `add` calls — when a
message with the same id exists but no pending message of that client has an
identical payload, `add` silently overwrites the entry with a fresh message
(`retryCount = 0`, `createdAt = nextAttempt = now`), persists the snapshot,
and the old message under that id is gone. -/
theorem C10_add_overwrites (now : Nat) (store : Store)
    (messageId clientId : String) (payload : IMessagePayload) (m0 : IMessage)
    (hm0 : m0 ∈ store) (hid : m0.id = messageId)
    (hnodedup : ∀ m ∈ store, ¬(m.clientId = clientId ∧ m.payload = payload)) :
    mapGet (add now store messageId clientId payload).1 messageId
      = some ⟨messageId, clientId, payload, now, now, 0⟩ ∧
    (add now store messageId clientId payload).2 = true ∧
    ((add now store messageId clientId payload).1).map IMessage.id
      = store.map IMessage.id ∧
    m0 ∉ (add now store messageId clientId payload).1 := by
  have hguard : store.any
      (fun m => m.clientId == clientId && m.payload == payload) = false := by
    rw [← Bool.not_eq_true, List.any_eq_true]
    rintro ⟨x, hx, hbx⟩
    simp only [Bool.and_eq_true, beq_iff_eq] at hbx
    exact hnodedup x hx hbx
  have hadd : add now store messageId clientId payload =
      (mapSet store ⟨messageId, clientId, payload, now, now, 0⟩, true) := by
    simp [add, hguard]
  have hany : store.any
      (fun m => m.id == (⟨messageId, clientId, payload, now, now, 0⟩ :
        IMessage).id) = true :=
    List.any_eq_true.mpr ⟨m0, hm0, by simp [hid]⟩
  refine ⟨?_, by rw [hadd], ?_, ?_⟩
  · rw [hadd]
    exact mapGet_mapSet store ⟨messageId, clientId, payload, now, now, 0⟩
  · rw [hadd]
    exact mapSet_ids_of_found store _ hany
  · rw [hadd]
    intro hmem
    simp only [mapSet, hany, if_true] at hmem
    obtain ⟨x, hx, hfx⟩ := List.mem_map.mp hmem
    by_cases hxid : x.id = messageId
    · rw [if_pos (by simp [hxid])] at hfx
      have := hnodedup m0 hm0
      rw [← hfx] at this
      exact this ⟨rfl, rfl⟩
    · rw [if_neg (by simp [hxid])] at hfx
      rw [hfx] at hxid
      exact hxid hid

/-- Witness for C10: `add` under the existing id `"m1"` with a different
payload replaces the old entry and persists. -/
theorem C10_add_overwrites_witness :
    (⟨"m1", "A", ⟨"u"⟩, 0, 0, 3⟩ : IMessage) ∈
        ([⟨"m1", "A", ⟨"u"⟩, 0, 0, 3⟩] : Store) ∧
    mapGet (add 9 [⟨"m1", "A", ⟨"u"⟩, 0, 0, 3⟩] "m1" "A" ⟨"w"⟩).1 "m1"
      = some ⟨"m1", "A", ⟨"w"⟩, 9, 9, 0⟩ ∧
    (⟨"m1", "A", ⟨"u"⟩, 0, 0, 3⟩ : IMessage) ∉
      (add 9 [⟨"m1", "A", ⟨"u"⟩, 0, 0, 3⟩] "m1" "A" ⟨"w"⟩).1 :=
  ⟨by decide,
    (C10_add_overwrites 9 [⟨"m1", "A", ⟨"u"⟩, 0, 0, 3⟩] "m1" "A" ⟨"w"⟩
      ⟨"m1", "A", ⟨"u"⟩, 0, 0, 3⟩ (by decide) (by decide) (by decide)).1,
    (C10_add_overwrites 9 [⟨"m1", "A", ⟨"u"⟩, 0, 0, 3⟩] "m1" "A" ⟨"w"⟩
      ⟨"m1", "A", ⟨"u"⟩, 0, 0, 3⟩ (by decide) (by decide) (by decide)).2.2.2⟩

theorem broadcast_fold_ids (now : Nat) (clients : Clients)
    (sockState : SocketState) (sendErr : SendErr) (l : List IMessage)
    (st : Store) :
    (l.foldl (fun st msg =>
      match clientsGet clients msg.clientId with
      | none => (onSendFailure now st msg.id).1
      | some sock =>
        if !(sockState sock) then (onSendFailure now st msg.id).1
        else if sendErr msg.id then (onSendFailure now st msg.id).1
        else st) st).map IMessage.id = st.map IMessage.id := by
  induction l generalizing st with
  | nil => rfl
  | cons msg rest ih =>
    rw [List.foldl_cons]
    cases hc : clientsGet clients msg.clientId with
    | none => rw [ih]; exact onSendFailure_ids now st msg.id
    | some sock =>
      by_cases hs : sockState sock = true
      · by_cases he : sendErr msg.id = true
        · simp only [hs, Bool.not_true, Bool.false_eq_true, if_false, he,
            if_true]
          rw [ih]
          exact onSendFailure_ids now st msg.id
        · have he' : sendErr msg.id = false := by simpa using he
          simp only [hs, Bool.not_true, Bool.false_eq_true, if_false, he']
          exact ih st
      · have hs' : sockState sock = false := by simpa using hs
        simp only [hs', Bool.not_false, if_true]
        rw [ih]
        exact onSendFailure_ids now st msg.id

/-- C4: a delivery tick never removes a message — under any connection
states and send outcomes the set of stored ids is unchanged — and when
every due message is sent successfully over an open connection the tick
leaves the store exactly as it was, so the message keeps its fields and is
returned again by `getMessagesToSend` at every later instant until an
explicit `ack` or a purge removes it. -/
theorem C4_no_removal_on_success (now : Nat) (clients : Clients)
    (sockState : SocketState) (sendErr : SendErr) (store : Store)
    (hok : ∀ m ∈ getMessagesToSend now store, ∃ sock,
      clientsGet clients m.clientId = some sock ∧ sockState sock = true ∧
      sendErr m.id = false) :
    broadcastPendingMessages now clients sockState sendErr store = store ∧
    (∀ m ∈ getMessagesToSend now store, ∀ now' : Nat, now ≤ now' →
      m ∈ getMessagesToSend now'
        (broadcastPendingMessages now clients sockState sendErr store)) ∧
    ∀ (now' : Nat) (clients' : Clients) (sockState' : SocketState)
      (sendErr' : SendErr),
      (broadcastPendingMessages now' clients' sockState' sendErr' store).map
        IMessage.id = store.map IMessage.id := by
  have hfix : broadcastPendingMessages now clients sockState sendErr store
      = store := by
    unfold broadcastPendingMessages
    generalize hdue : getMessagesToSend now store = due
    rw [hdue] at hok
    clear hdue
    induction due with
    | nil => rfl
    | cons msg rest ih =>
      obtain ⟨sock, hc, hs, he⟩ := hok msg (by simp)
      rw [List.foldl_cons, hc]
      simp only [hs, Bool.not_true, Bool.false_eq_true, if_false, he]
      exact ih (fun m hm => hok m (by simp [hm]))
  refine ⟨hfix, ?_, ?_⟩
  · intro m hm now' hnow
    rw [hfix]
    have := (List.mem_filter.mp hm)
    rw [getMessagesToSend, List.mem_filter]
    refine ⟨this.1, ?_⟩
    have hle : m.nextAttempt ≤ now := by simpa [getMessagesToSend] using this.2
    simp only [decide_eq_true_eq]
    omega
  · intro now' clients' sockState' sendErr'
    unfold broadcastPendingMessages
    exact broadcast_fold_ids now' clients' sockState' sendErr' _ store

/-- Witness for C4: one due message for client `"A"` with an open socket and
a clean send leaves the singleton store untouched. -/
theorem C4_no_removal_on_success_witness :
    broadcastPendingMessages 5 [("A", 1)] (fun _ => true) (fun _ => false)
        [⟨"m1", "A", ⟨"u"⟩, 0, 0, 0⟩] = [⟨"m1", "A", ⟨"u"⟩, 0, 0, 0⟩] :=
  (C4_no_removal_on_success 5 [("A", 1)] (fun _ => true) (fun _ => false)
    [⟨"m1", "A", ⟨"u"⟩, 0, 0, 0⟩]
    (fun m hm => by
      have hm' : m = ⟨"m1", "A", ⟨"u"⟩, 0, 0, 0⟩ := by
        simpa [getMessagesToSend] using hm
      subst hm'
      exact ⟨1, rfl, rfl, rfl⟩)).1

theorem runQueue_spec (fuel : Nat) (q : List Task) (h : sizeAll q ≤ fuel) :
    (runQueue fuel q).map Prod.fst = runOrder q ∧
    (runQueue fuel q).length = sizeAll q := by
  induction fuel generalizing q with
  | zero =>
    cases q with
    | nil => simp [runQueue, runOrder, sizeAll]
    | cons t ts =>
      exfalso
      cases t
      simp [sizeAll, Task.size] at h
  | succ n ih =>
    cases q with
    | nil => simp [runQueue, runOrder, sizeAll]
    | cons t rest =>
      cases t with
      | mk l f s =>
        have hsz : sizeAll (rest ++ s) ≤ n := by
          rw [sizeAll_append]
          simp only [sizeAll, Task.size] at h
          omega
        obtain ⟨h1, h2⟩ := ih (rest ++ s) hsz
        refine ⟨?_, ?_⟩
        · rw [runQueue, runOrder]
          simp [h1]
        · rw [runQueue]
          simp only [List.length_cons, h2, sizeAll_append, sizeAll, Task.size]
          omega

/-- C7: the serial task queue executes every submitted task exactly once,
strictly in submission order and one at a time: draining a queue with
enough fuel produces a trace whose label sequence is the deterministic
FIFO order `runOrder` — defined without reference to the failure flags, so
a throwing task (caught and logged) never stops or reorders later tasks —
and whose length counts every task, including those enqueued re-entrantly
from within a running task, which run after the currently running task
completes, in submission order. -/
theorem C7_serial_task_queue (fuel : Nat) (q : List Task)
    (h : sizeAll q ≤ fuel) :
    (runQueue fuel q).map Prod.fst = runOrder q ∧
    (runQueue fuel q).length = sizeAll q ∧
    ∀ t : Task, ∀ q' : List Task, enqueueTask q' t = q' ++ [t] := by
  obtain ⟨h1, h2⟩ := runQueue_spec fuel q h
  exact ⟨h1, h2, fun _ _ => rfl⟩

/-- Witness for C7: a task that spawns a re-entrant task, followed by a
failing task; the trace runs all three in submission order, the spawned
task last, the failure not stopping the queue. -/
theorem C7_serial_task_queue_witness :
    sizeAll [.mk 0 false [.mk 2 false []], .mk 1 true []] ≤ 3 ∧
    ((runQueue 3 [.mk 0 false [.mk 2 false []], .mk 1 true []]).map Prod.fst
        = runOrder [.mk 0 false [.mk 2 false []], .mk 1 true []] ∧
      (runQueue 3 [.mk 0 false [.mk 2 false []], .mk 1 true []]).length
        = sizeAll [.mk 0 false [.mk 2 false []], .mk 1 true []] ∧
      ∀ t : Task, ∀ q' : List Task, enqueueTask q' t = q' ++ [t]) :=
  ⟨by simp [sizeAll, Task.size],
    C7_serial_task_queue 3 [.mk 0 false [.mk 2 false []], .mk 1 true []]
      (by simp [sizeAll, Task.size])⟩

/-- C8: the dispatcher acks a message id iff the inbound payload parsed to
a value whose `type` property is the string `"ACK"` and whose `id`
property is a string; every other shape, and every parse failure, leaves
the store untouched with no write and no exception (the handler is a
total function). -/
theorem C8_inbound_ack_iff (parsed : Option JVal) (store : Store) :
    (∀ i : String, handleInbound parsed = some i ↔
      (∃ v : JVal, parsed = some v ∧
        v.getProp "type" = some (.jstr "ACK") ∧
        v.getProp "id" = some (.jstr i))) ∧
    (handleInbound parsed = none → applyInbound parsed store = (store, false)) ∧
    (∀ i : String, handleInbound parsed = some i →
      applyInbound parsed store = ack store i) := by
  cases parsed with
  | none =>
    refine ⟨?_, ?_, ?_⟩
    · intro i
      simp [handleInbound]
    · intro _
      simp [applyInbound, handleInbound]
    · intro i hi
      simp [handleInbound] at hi
  | some v =>
    have hiff : ∀ i : String, handleInbound (some v) = some i ↔
        (v.getProp "type" = some (.jstr "ACK") ∧
          v.getProp "id" = some (.jstr i)) := by
      intro i
      have hred : handleInbound (some v) =
          (match v.getProp "type", v.getProp "id" with
            | some (.jstr t), some (.jstr i0) =>
              if t == "ACK" then some i0 else none
            | _, _ => none) := rfl
      rw [hred]
      cases ht : v.getProp "type" with
      | none => simp
      | some tv =>
        cases hi : v.getProp "id" with
        | none => cases tv <;> simp
        | some iv =>
          cases tv with
          | jstr t =>
            cases iv with
            | jstr i0 =>
              by_cases hta : t = "ACK"
              · subst hta
                simp
              · simp [hta]
            | jnull => simp
            | jbool b => simp
            | jnum n => simp
            | jarr xs => simp
            | jobj fs => simp
          | jnull => simp
          | jbool b => simp
          | jnum n => simp
          | jarr xs => simp
          | jobj fs => simp
    refine ⟨?_, ?_, ?_⟩
    · intro i
      rw [hiff i]
      constructor
      · intro hp
        exact ⟨v, rfl, hp.1, hp.2⟩
      · rintro ⟨v', hv, h1, h2⟩
        cases hv
        exact ⟨h1, h2⟩
    · intro h
      simp [applyInbound, h]
    · intro i h
      simp [applyInbound, h]

/-- Witness for C8: a well-formed ACK frame acks its id; a non-ACK object
and an unparseable frame leave the store as is. -/
theorem C8_inbound_ack_iff_witness :
    handleInbound (some (.jobj [("type", .jstr "ACK"), ("id", .jstr "m1")]))
      = some "m1" ∧
    applyInbound (some (.jobj [("type", .jstr "ACK"), ("id", .jstr "m1")]))
        [⟨"m1", "A", ⟨"u"⟩, 0, 0, 0⟩]
      = ack [⟨"m1", "A", ⟨"u"⟩, 0, 0, 0⟩] "m1" ∧
    applyInbound (some (.jobj [("type", .jstr "OTHER")]))
        [⟨"m1", "A", ⟨"u"⟩, 0, 0, 0⟩]
      = ([⟨"m1", "A", ⟨"u"⟩, 0, 0, 0⟩], false) ∧
    applyInbound none [⟨"m1", "A", ⟨"u"⟩, 0, 0, 0⟩]
      = ([⟨"m1", "A", ⟨"u"⟩, 0, 0, 0⟩], false) :=
  ⟨rfl,
    (C8_inbound_ack_iff
        (some (.jobj [("type", .jstr "ACK"), ("id", .jstr "m1")]))
        [⟨"m1", "A", ⟨"u"⟩, 0, 0, 0⟩]).2.2 "m1" rfl,
    (C8_inbound_ack_iff (some (.jobj [("type", .jstr "OTHER")]))
        [⟨"m1", "A", ⟨"u"⟩, 0, 0, 0⟩]).2.1 rfl,
    (C8_inbound_ack_iff none [⟨"m1", "A", ⟨"u"⟩, 0, 0, 0⟩]).2.1 rfl⟩

theorem find?_pairs_replace (clients : Clients) (cid : String) (sock : Nat)
    (h : clients.any (fun p => p.1 == cid) = true) :
    (clients.map (fun p => if p.1 == cid then (cid, sock) else p)).find?
      (fun p => p.1 == cid) = some (cid, sock) := by
  induction clients with
  | nil => simp at h
  | cons a as ih =>
    by_cases ha : a.1 = cid
    · have ha' : (a.1 == cid) = true := by simp [ha]
      simp only [List.map_cons, ha', if_true]
      exact List.find?_cons_of_pos _ (by simp)
    · have ha' : (a.1 == cid) = false := by simp [ha]
      simp only [List.any_cons, ha', Bool.false_or] at h
      simp only [List.map_cons, ha', Bool.false_eq_true, if_false]
      rw [List.find?_cons_of_neg _ (by simp [ha'])]
      exact ih h

theorem clientsGet_clientsSet (clients : Clients) (cid : String)
    (sock : Nat) : clientsGet (clientsSet clients cid sock) cid = some sock := by
  unfold clientsGet clientsSet
  cases hany : clients.any (fun p => p.1 == cid) with
  | true =>
    simp only [if_true]
    rw [find?_pairs_replace clients cid sock hany]
    rfl
  | false =>
    simp only [Bool.false_eq_true, if_false]
    rw [List.find?_append]
    have hnone : clients.find? (fun p => p.1 == cid) = none := by
      rw [List.find?_eq_none]
      intro p hp hbeq
      have hp' : clients.any (fun p => p.1 == cid) = true :=
        List.any_eq_true.mpr ⟨p, hp, hbeq⟩
      rw [hany] at hp'
      exact Bool.false_ne_true hp'
    simp [hnone]

theorem clientsGet_clientsDelete (clients : Clients) (cid : String) :
    clientsGet (clientsDelete clients cid) cid = none := by
  unfold clientsGet clientsDelete
  rw [List.find?_eq_none.mpr]
  · rfl
  · intro p hp hbeq
    have := (List.mem_filter.mp hp).2
    simp only [bne_iff_ne, ne_eq] at this
    simp only [beq_iff_eq] at hbeq
    exact this hbeq

/-- C9: a new connection with no extractable `clientId` is closed with the
policy-violation code 1008 and never registered; with a `clientId` the
socket is registered under it (a later connection for the same id replaces
the mapping), the `{type:"CLIENT_ID", clientId}` confirmation is sent, the
message and close handlers are attached, and the close handler removes the
registration for that `clientId`. -/
theorem C9_connection_lifecycle (clients : Clients)
    (query : Option (List (String × String))) (sock : Nat) :
    (extractClientId query = none →
      handleConnection clients query sock =
        { clients := clients,
          closedWith := some (1008, "clientId is required"),
          sent := [], handlersAttached := false }) ∧
    (∀ cid : String, extractClientId query = some cid →
      (handleConnection clients query sock).clients
          = clientsSet clients cid sock ∧
      clientsGet (handleConnection clients query sock).clients cid
          = some sock ∧
      (handleConnection clients query sock).closedWith = none ∧
      (handleConnection clients query sock).sent
          = [.jobj [("type", .jstr "CLIENT_ID"), ("clientId", .jstr cid)]] ∧
      (handleConnection clients query sock).handlersAttached = true ∧
      clientsGet
        (handleDisconnect (handleConnection clients query sock).clients cid)
        cid = none) := by
  constructor
  · intro h
    simp [handleConnection, h]
  · intro cid h
    have hc : handleConnection clients query sock =
        { clients := clientsSet clients cid sock,
          closedWith := none,
          sent := [.jobj [("type", .jstr "CLIENT_ID"),
            ("clientId", .jstr cid)]],
          handlersAttached := true } := by
      simp [handleConnection, h]
    rw [hc]
    exact ⟨rfl, clientsGet_clientsSet clients cid sock, rfl, rfl, rfl,
      clientsGet_clientsDelete (clientsSet clients cid sock) cid⟩

/-- Witness for C9: a URL without `clientId` is rejected with 1008; one
with `clientId=A` registers the socket over a stale entry, and the close
handler unregisters it. -/
theorem C9_connection_lifecycle_witness :
    handleConnection [("A", 7)] (some [("other", "x")]) 1
      = { clients := [("A", 7)],
          closedWith := some (1008, "clientId is required"),
          sent := [], handlersAttached := false } ∧
    clientsGet (handleConnection [("A", 7)] (some [("clientId", "A")]) 1).clients
      "A" = some 1 ∧
    clientsGet
      (handleDisconnect
        (handleConnection [("A", 7)] (some [("clientId", "A")]) 1).clients "A")
      "A" = none :=
  ⟨(C9_connection_lifecycle [("A", 7)] (some [("other", "x")]) 1).1 rfl,
    ((C9_connection_lifecycle [("A", 7)] (some [("clientId", "A")]) 1).2
      "A" rfl).2.1,
    ((C9_connection_lifecycle [("A", 7)] (some [("clientId", "A")]) 1).2
      "A" rfl).2.2.2.2.2⟩

end UrlShortener
